import Mathlib

/-!
Verification of the device-metrics simulator and the dashboard's
time-bucketed cache loader.

The development shallowly embeds the Python sources:
* `programming_portfolio/device_simulator.py` — status derivation,
  initial-history generation, daily append;
* `app.py` — the `lru_cache(maxsize=1)` time-bucketed reload wrapper
  (`_cached_load` / `load_dataframe`).

Modelling conventions:
* Python floats are modelled as `ℚ`; Python `round(x, n)` is modelled by
  round-half-to-even on rationals (`roundTo`), matching the documented
  semantics of Python's `round`.
* Calendar days are modelled as integers (a day number); `date.today()`
  becomes an explicit parameter `todayN`.  ISO date strings compare
  lexicographically exactly as the day numbers compare, so `ℤ` order is
  faithful to the string order the source sorts by.
* Randomness (`rng.integers`, `rng.uniform`, `rng.normal`, `rng.poisson`)
  is modelled by explicit oracle structures supplying each drawn value;
  support constraints of the distributions appear as hypotheses.
* `pandas` data frames become `List MetricRecord`; `sort_values` (an
  unstable quicksort in pandas) is modelled by a comparison sort on the
  same key — every property proved here depends only on sortedness and
  multiset contents, never on tie order.
* The NumPy detail that `generate_initial_history` keeps its battery
  array with integer dtype — so that assigning `max(0, b - drain)` into
  it truncates toward zero — is modelled by `Int.floor` (the values are
  nonnegative, where truncation and floor agree).
-/

namespace Portfolio

/-- Round-half-to-even of a rational to an integer: the semantics of
Python's builtin `round` to 0 digits. -/
def roundHalfEven (q : ℚ) : ℤ :=
  if q - ⌊q⌋ < 1/2 then ⌊q⌋
  else if (1:ℚ)/2 < q - ⌊q⌋ then ⌊q⌋ + 1
  else if ⌊q⌋ % 2 = 0 then ⌊q⌋ else ⌊q⌋ + 1

/-- Python `round(q, ndigits)`. -/
def roundTo (ndigits : ℕ) (q : ℚ) : ℚ :=
  (roundHalfEven (q * 10 ^ ndigits) : ℚ) / 10 ^ ndigits

/-- `STATUSES` from `device_simulator.py`. -/
def STATUSES : List String := ["OK", "WARN", "ERROR", "LOW_BATTERY"]

/-- `_derive_status` from `device_simulator.py`:
sequential threshold checks, battery first. -/
def _derive_status (battery : ℚ) (errors : ℤ) : String :=
  if battery < 15 then "LOW_BATTERY"
  else if errors ≥ 3 then "ERROR"
  else if errors ≥ 1 then "WARN"
  else "OK"

/-- Status function as the specification words it: "LOW_BATTERY if
battery < 15, else ERROR if errors ≥ 3, else WARN if errors ≥ 1,
else OK".  Stated separately from `_derive_status` so the code/spec
agreement is a theorem, not a definition. -/
def derive_status_spec (battery : ℚ) (errors : ℤ) : String :=
  if battery < 15 then "LOW_BATTERY"
  else if 3 ≤ errors then "ERROR"
  else if 1 ≤ errors then "WARN"
  else "OK"

/-- One CSV row of `device_metrics.csv` (the `COLUMNS` schema of
`device_simulator.py`).  `date` is a day number standing for the ISO
date string. -/
structure MetricRecord where
  date : ℤ
  device_id : ℕ
  temperature_c : ℚ
  humidity_pct : ℚ
  battery_pct : ℚ
  error_count : ℤ
  status : String
deriving DecidableEq, Repr

/-- The sort key used by both `sort_values(["device_id", "date"])`
call sites: lexicographic on (device_id, date). -/
def devDateLe (a b : MetricRecord) : Prop :=
  a.device_id < b.device_id ∨ (a.device_id = b.device_id ∧ a.date ≤ b.date)

instance : DecidableRel devDateLe := fun a b => by
  unfold devDateLe; infer_instance

instance : IsTotal MetricRecord devDateLe :=
  ⟨fun a b => by unfold devDateLe; omega⟩

instance : IsTrans MetricRecord devDateLe :=
  ⟨fun a b c => by unfold devDateLe; omega⟩

/-- `df.sort_values(["device_id", "date"])`. -/
def sortStore (l : List MetricRecord) : List MetricRecord :=
  l.insertionSort devDateLe

/-! ### `generate_initial_history`

The source iterates `for d in range(days, 0, -1)`; we index the outer
loop by `i = days - d ∈ [0, days)`, so iteration `i` handles calendar
day `today - (days - i)`.  The inner loop runs over `dev = 1..devices`.
The randomness drawn inside the loops is supplied by a `GenOracle`. -/

/-- Random draws of `generate_initial_history`: `startBattery dev` is
`rng.integers(60, 101)` for the device, the others are the per-(step,
device) in-loop draws (`rng.uniform(0.5, 2.5)`, `rng.normal(25, 3)`,
`rng.normal(45, 5)`, `rng.poisson(0.4)`). -/
structure GenOracle where
  startBattery : ℕ → ℤ
  drain : ℕ → ℕ → ℚ
  temp : ℕ → ℕ → ℚ
  humidity : ℕ → ℕ → ℚ
  errors : ℕ → ℕ → ℤ

/-- One in-place update of the integer battery array:
`starting_battery[dev-1] = max(0, starting_battery[dev-1] - drain)`.
The array has NumPy integer dtype, so the float is truncated toward
zero on assignment; the value is nonnegative, so truncation is floor. -/
def genStep (prev : ℤ) (drain : ℚ) : ℤ :=
  ⌊max 0 ((prev : ℚ) - drain)⌋

/-- Battery-array entry for device `dev` after the first `k` outer-loop
iterations have updated it (`k = 0` is the freshly drawn start). -/
def batteryAfter (o : GenOracle) (dev : ℕ) : ℕ → ℤ
  | 0 => o.startBattery dev
  | k + 1 => genStep (batteryAfter o dev k) (o.drain k dev)

/-- The record appended for outer iteration `i` and device `dev`:
`battery` reads the just-updated array entry, and `status` is derived
from that same (integral) battery value. -/
def mkGenRecord (o : GenOracle) (todayN : ℤ) (days i dev : ℕ) : MetricRecord :=
  { date := todayN - ((days - i : ℕ) : ℤ)
    device_id := dev
    temperature_c := roundTo 2 (o.temp i dev)
    humidity_pct := roundTo 2 (o.humidity i dev)
    battery_pct := roundTo 1 ((batteryAfter o dev (i + 1) : ℚ))
    error_count := o.errors i dev
    status := _derive_status ((batteryAfter o dev (i + 1) : ℚ)) (o.errors i dev) }

/-- `generate_initial_history(days, devices)` as the list of records the
double loop appends, in emission order. -/
def generate_initial_history (o : GenOracle) (todayN : ℤ) (days devices : ℕ) :
    List MetricRecord :=
  (List.range days).flatMap fun i =>
    (List.range devices).map fun j => mkGenRecord o todayN days i (j + 1)

/-! ### `append_today`

`append_today(csv_path, devices)` reads the store (if the file exists),
filters out today's rows, appends one fresh row per device and writes
the re-sorted result.  The store is the `Option (List MetricRecord)`
argument (`none` models a missing file); the function returns the list
that is written back.  Random draws come from an `AppendOracle`. -/

/-- Random draws of `append_today`: `freshBattery dev` is the
`rng.integers(70, 101)` used to seed `last_battery` when the file is
missing, `unseenBattery dev` the `rng.integers(65, 101)` fallback of
`last_battery.get`, and the rest are the per-device in-loop draws
(`rng.uniform(0.8, 3.0)`, `rng.normal(25, 3)`, `rng.normal(45, 5)`,
`rng.poisson(0.5)`). -/
structure AppendOracle where
  freshBattery : ℕ → ℤ
  unseenBattery : ℕ → ℤ
  drain : ℕ → ℚ
  temp : ℕ → ℚ
  humidity : ℕ → ℚ
  errors : ℕ → ℤ

/-- `df.sort_values(["device_id", "date"]).groupby("device_id").tail(1)
.set_index("device_id")["battery_pct"]` looked up at `dev`: the
battery of the device's latest row, `none` if the device has no row. -/
def lastBattery (s : List MetricRecord) (dev : ℕ) : Option ℚ :=
  (((sortStore s).filter fun r => r.device_id == dev).getLast?).map
    fun r => r.battery_pct

/-- `prev_batt = last_battery.get(dev, rng.integers(65, 101))`, with
`last_battery` seeded from `rng.integers(70, 101)` per device when the
file does not exist. -/
def append_prev_batt (o : AppendOracle) (store : Option (List MetricRecord))
    (devices dev : ℕ) : ℚ :=
  match store with
  | some s => (lastBattery s dev).getD ((o.unseenBattery dev : ℤ) : ℚ)
  | none => if 1 ≤ dev ∧ dev ≤ devices then ((o.freshBattery dev : ℤ) : ℚ)
            else ((o.unseenBattery dev : ℤ) : ℚ)

/-- `battery = max(0, prev_batt - drain)` — the unrounded value both the
stored (rounded) battery and the stored status are computed from. -/
def append_raw_battery (o : AppendOracle) (store : Option (List MetricRecord))
    (devices dev : ℕ) : ℚ :=
  max 0 (append_prev_batt o store devices dev - o.drain dev)

/-- The row `append_today` builds for device `dev` on day `todayN`. -/
def append_row (o : AppendOracle) (todayN : ℤ) (store : Option (List MetricRecord))
    (devices dev : ℕ) : MetricRecord :=
  { date := todayN
    device_id := dev
    temperature_c := roundTo 2 (o.temp dev)
    humidity_pct := roundTo 2 (o.humidity dev)
    battery_pct := roundTo 1 (append_raw_battery o store devices dev)
    error_count := o.errors dev
    status := _derive_status (append_raw_battery o store devices dev) (o.errors dev) }

/-- `append_today`: drop every stored row dated today
(`df = df[~(df["date"] == today_str)]`), append the fresh rows for
devices `1..devices`, and sort by (device_id, date). -/
def append_today (o : AppendOracle) (todayN : ℤ) (store : Option (List MetricRecord))
    (devices : ℕ) : List MetricRecord :=
  let df := store.getD []
  let new_rows := (List.range devices).map fun j => append_row o todayN store devices (j + 1)
  sortStore ((df.filter fun r => !(r.date == todayN)) ++ new_rows)

/-! ### `load_dataframe` / `_cached_load` (app.py)

The backing CSV file is a `StoredFile`: its parsed rows plus a flag for
whether all `EXPECTED_COLS` are present (the only validation the code
performs).  `lru_cache(maxsize=1)` on `_cached_load(ts_bucket)` is a
single `Option (bucket, table)` slot: a call whose key equals the
cached key returns the cached value without running the body; any other
key runs the body (one `pd.read_csv`) and replaces the slot.  The third
component of `load_dataframe`'s result counts `pd.read_csv` calls made
by that invocation. -/

/-- `CACHE_TTL = 30  # seconds`. -/
def CACHE_TTL : ℕ := 30

/-- The backing CSV as the dashboard sees it: parsed rows and whether
`EXPECTED_COLS - set(df.columns)` is empty. -/
structure StoredFile where
  hasExpectedCols : Bool
  rows : List MetricRecord

/-- Body of `_cached_load`: read the file; if expected columns are
missing return the startup frame `_initial_df`, otherwise parse dates
and sort by (device_id, date). -/
def _cached_load (file : StoredFile) (initial_df : List MetricRecord) :
    List MetricRecord :=
  if file.hasExpectedCols then sortStore file.rows else initial_df

/-- Process-wide mutable state of the loader: the startup snapshot
`_initial_df` (set once, before the cache exists) and the
`lru_cache(maxsize=1)` slot keyed by `ts_bucket`. -/
structure CacheState where
  initial_df : List MetricRecord
  cache : Option (ℕ × List MetricRecord)
deriving DecidableEq

/-- `load_dataframe()` at wall-clock second `t` against the current
`file`: compute `ts_bucket = int(time.time() // CACHE_TTL)` and consult
the memoized `_cached_load`.  Returns (table, new state, number of
`pd.read_csv` calls performed). -/
def load_dataframe (file : StoredFile) (t : ℕ) (s : CacheState) :
    List MetricRecord × CacheState × ℕ :=
  let bucket := t / CACHE_TTL
  match s.cache with
  | some (b, tbl) =>
      if b = bucket then (tbl, s, 0)
      else
        let tbl := _cached_load file s.initial_df
        (tbl, { s with cache := some (bucket, tbl) }, 1)
  | none =>
      let tbl := _cached_load file s.initial_df
      (tbl, { s with cache := some (bucket, tbl) }, 1)

/-- Run a sequence of `load_dataframe` calls at the given times,
returning the final state and the total number of store reads. -/
def runCalls (file : StoredFile) (s : CacheState) : List ℕ → CacheState × ℕ
  | [] => (s, 0)
  | t :: ts =>
      let r := load_dataframe file t s
      let rest := runCalls file r.2.1 ts
      (rest.1, r.2.2 + rest.2)

/-! ### Concrete fixtures for witnesses and counterexamples -/

/-- A stored row: day 0, device 1, battery 80. -/
def rA4 : MetricRecord :=
  { date := 0, device_id := 1, temperature_c := 25, humidity_pct := 45,
    battery_pct := 80, error_count := 0, status := "OK" }

/-- A stored row: day 1, device 1, battery 70. -/
def rB4 : MetricRecord :=
  { date := 1, device_id := 1, temperature_c := 25, humidity_pct := 45,
    battery_pct := 70, error_count := 0, status := "OK" }

/-- Loader state at startup: `_initial_df = [rA4]`, empty cache. -/
def sC4 : CacheState := { initial_df := [rA4], cache := none }

/-- A valid backing file holding `[rB4]`. -/
def fileB4 : StoredFile := { hasExpectedCols := true, rows := [rB4] }

/-- A backing file with expected columns missing. -/
def fileBad4 : StoredFile := { hasExpectedCols := false, rows := [rB4] }

/-- Loader state whose cache slot holds bucket 0 with table `[rB4]`. -/
def sHit : CacheState := { initial_df := [rA4], cache := some (0, [rB4]) }

/-- A deterministic append oracle with all draws constant and in
range: fresh battery 70, unseen-device battery 65, drain 1,
temperature 25, humidity 45, no errors. -/
def oA3 : AppendOracle :=
  { freshBattery := fun _ => 70, unseenBattery := fun _ => 65,
    drain := fun _ => 1, temp := fun _ => 25, humidity := fun _ => 45,
    errors := fun _ => 0 }

/-- A pre-existing row for device 7 dated day 100 ("today"). -/
def rT7 : MetricRecord :=
  { date := 100, device_id := 7, temperature_c := 25, humidity_pct := 45,
    battery_pct := 50, error_count := 0, status := "OK" }

/-- A pre-existing row for device 1 dated day 99 (not "today"). -/
def rO1 : MetricRecord :=
  { date := 99, device_id := 1, temperature_c := 25, humidity_pct := 45,
    battery_pct := 60, error_count := 0, status := "OK" }

/-- A stored row for device 1 dated day 99 with battery 15.8. -/
def rPrev5 : MetricRecord :=
  { date := 99, device_id := 1, temperature_c := 25, humidity_pct := 45,
    battery_pct := 79/5, error_count := 0, status := "OK" }

/-- Append oracle for the C5 counterexample: drain 0.84, no errors, so
the unrounded battery 15.8 - 0.84 = 14.96 derives LOW_BATTERY while
the stored battery rounds up to 15.0. -/
def oA5 : AppendOracle :=
  { freshBattery := fun _ => 70, unseenBattery := fun _ => 65,
    drain := fun _ => 21/25, temp := fun _ => 25, humidity := fun _ => 45,
    errors := fun _ => 0 }

/-- Append oracle for the C9 counterexample: unseen-device start 65 and
drain 0.88, so the stored battery 64.1 is not exactly start - drain. -/
def oA9 : AppendOracle :=
  { freshBattery := fun _ => 70, unseenBattery := fun _ => 65,
    drain := fun _ => 22/25, temp := fun _ => 25, humidity := fun _ => 45,
    errors := fun _ => 0 }

/-- A deterministic generator oracle: every start battery 80, every
drain 1, temperatures 25, humidities 45, no errors.  All values lie in
the support of the corresponding distributions. -/
def oG : GenOracle :=
  { startBattery := fun _ => 80, drain := fun _ _ => 1,
    temp := fun _ _ => 25, humidity := fun _ _ => 45, errors := fun _ _ => 0 }

/-- Generator oracle for the C6 counterexample: start battery 100 and
drain 1/2, so the first recorded battery is the truncation of 99.5. -/
def oG6 : GenOracle :=
  { startBattery := fun _ => 100, drain := fun _ _ => 1/2,
    temp := fun _ _ => 25, humidity := fun _ _ => 45, errors := fun _ _ => 0 }

/-! ### Helper lemmas -/

theorem roundHalfEven_intCast (n : ℤ) : roundHalfEven ((n : ℤ) : ℚ) = n := by
  unfold roundHalfEven
  rw [Int.floor_intCast]
  norm_num

theorem roundTo_intCast (d : ℕ) (n : ℤ) : roundTo d ((n : ℤ) : ℚ) = ((n : ℤ) : ℚ) := by
  unfold roundTo
  have h : ((n : ℤ) : ℚ) * 10 ^ d = (((n * 10 ^ d : ℤ)) : ℚ) := by push_cast; ring
  rw [h, roundHalfEven_intCast]
  push_cast
  have : ((10 : ℚ)) ^ d ≠ 0 := by positivity
  field_simp

theorem roundHalfEven_nonneg {q : ℚ} (h : 0 ≤ q) : 0 ≤ roundHalfEven q := by
  unfold roundHalfEven
  have hf : (0 : ℤ) ≤ ⌊q⌋ := Int.floor_nonneg.mpr h
  split_ifs <;> omega

theorem roundTo_nonneg (d : ℕ) {q : ℚ} (h : 0 ≤ q) : 0 ≤ roundTo d q := by
  unfold roundTo
  apply div_nonneg
  · exact_mod_cast roundHalfEven_nonneg (by positivity)
  · positivity

theorem mem_generate {o : GenOracle} {todayN : ℤ} {days devices : ℕ} {r : MetricRecord} :
    r ∈ generate_initial_history o todayN days devices ↔
      ∃ i < days, ∃ j < devices, r = mkGenRecord o todayN days i (j + 1) := by
  simp only [generate_initial_history, List.mem_flatMap, List.mem_map, List.mem_range]
  constructor
  · rintro ⟨i, hi, j, hj, rfl⟩; exact ⟨i, hi, j, hj, rfl⟩
  · rintro ⟨i, hi, j, hj, rfl⟩; exact ⟨i, hi, j, hj, rfl⟩

theorem mkGenRecord_date {todayN : ℤ} {days i : ℕ} (o : GenOracle) (dev : ℕ)
    (h : i < days) :
    (mkGenRecord o todayN days i dev).date = todayN - days + i := by
  simp only [mkGenRecord]
  rw [Nat.cast_sub h.le]
  ring

theorem genStep_nonneg (prev : ℤ) (drain : ℚ) : 0 ≤ genStep prev drain :=
  Int.floor_nonneg.mpr (le_max_left _ _)

theorem genStep_le (prev : ℤ) (drain : ℚ) (h0 : 0 ≤ prev) (hd : 0 ≤ drain) :
    genStep prev drain ≤ prev := by
  unfold genStep
  have h1 : max 0 ((prev : ℚ) - drain) ≤ ((prev : ℤ) : ℚ) := by
    apply max_le
    · exact_mod_cast h0
    · linarith
  calc ⌊max 0 ((prev : ℚ) - drain)⌋ ≤ ⌊((prev : ℤ) : ℚ)⌋ := Int.floor_le_floor h1
    _ = prev := Int.floor_intCast prev

theorem batteryAfter_nonneg (o : GenOracle) (dev : ℕ)
    (h : 0 ≤ o.startBattery dev) : ∀ k, 0 ≤ batteryAfter o dev k
  | 0 => h
  | _ + 1 => genStep_nonneg _ _

theorem batteryAfter_succ_le (o : GenOracle) (dev : ℕ)
    (h : 0 ≤ o.startBattery dev) (hd : ∀ k, 0 ≤ o.drain k dev) (k : ℕ) :
    batteryAfter o dev (k + 1) ≤ batteryAfter o dev k :=
  genStep_le _ _ (batteryAfter_nonneg o dev h k) (hd k)

theorem batteryAfter_antitone (o : GenOracle) (dev : ℕ)
    (h : 0 ≤ o.startBattery dev) (hd : ∀ k, 0 ≤ o.drain k dev)
    {k k' : ℕ} (hk : k ≤ k') : batteryAfter o dev k' ≤ batteryAfter o dev k := by
  induction k' with
  | zero => simp_all
  | succ n ih =>
      rcases Nat.lt_or_ge k (n + 1) with hlt | hge
      · exact le_trans (batteryAfter_succ_le o dev h hd n) (ih (Nat.lt_succ_iff.mp hlt))
      · have : k = n + 1 := le_antisymm hk hge
        subst this; exact le_refl _

theorem countP_range_eq (dev n : ℕ) :
    ((List.range n).countP fun j => j + 1 == dev) =
      if 1 ≤ dev ∧ dev ≤ n then 1 else 0 := by
  induction n with
  | zero => simp only [List.range_zero, List.countP_nil]; split_ifs <;> omega
  | succ n ih =>
      rw [List.range_succ, List.countP_append, ih]
      simp only [List.countP_cons, List.countP_nil, beq_iff_eq]
      split_ifs <;> omega

theorem append_today_perm (o : AppendOracle) (todayN : ℤ)
    (store : Option (List MetricRecord)) (devices : ℕ) :
    (append_today o todayN store devices).Perm
      (((store.getD []).filter fun r => !(r.date == todayN)) ++
        ((List.range devices).map fun j => append_row o todayN store devices (j + 1))) := by
  unfold append_today sortStore
  exact List.perm_insertionSort _ _

theorem mem_sortStore {l : List MetricRecord} {r : MetricRecord} :
    r ∈ sortStore l ↔ r ∈ l :=
  (List.perm_insertionSort devDateLe l).mem_iff

theorem sorted_append_today (o : AppendOracle) (todayN : ℤ)
    (store : Option (List MetricRecord)) (devices : ℕ) :
    List.Sorted devDateLe (append_today o todayN store devices) := by
  unfold append_today sortStore
  exact List.sorted_insertionSort devDateLe _

theorem countP_today_filter (s : List MetricRecord) (T : ℤ) (dev : ℕ) :
    ((s.filter fun r => !(r.date == T)).countP
      fun r => r.date == T && r.device_id == dev) = 0 := by
  apply List.countP_eq_zero.mpr
  intro r hr
  have h2 := (List.mem_filter.mp hr).2
  simp only [Bool.not_eq_true', beq_eq_false_iff_ne, ne_eq] at h2
  simp only [Bool.and_eq_true, beq_iff_eq, not_and]
  intro hdate
  exact absurd hdate h2

theorem countP_new_rows (o : AppendOracle) (T : ℤ)
    (store : Option (List MetricRecord)) (devices dev : ℕ) :
    (((List.range devices).map fun j => append_row o T store devices (j + 1)).countP
        fun r => r.date == T && r.device_id == dev) =
      if 1 ≤ dev ∧ dev ≤ devices then 1 else 0 := by
  rw [List.countP_map]
  have heq : ∀ j ∈ List.range devices,
      (((fun r => r.date == T && r.device_id == dev) ∘
        fun j => append_row o T store devices (j + 1)) j = true ↔
      ((fun j => j + 1 == dev) j) = true) := by
    intro j _
    simp [Function.comp_def, append_row]
  rw [List.countP_congr heq, countP_range_eq]

theorem countP_append_today (o : AppendOracle) (T : ℤ) (s : List MetricRecord)
    (devices dev : ℕ) :
    ((append_today o T (some s) devices).countP
        fun r => r.date == T && r.device_id == dev) =
      if 1 ≤ dev ∧ dev ≤ devices then 1 else 0 := by
  rw [(append_today_perm o T (some s) devices).countP_eq, List.countP_append]
  show ((s.filter fun r => !(r.date == T)).countP _) + _ = _
  rw [countP_today_filter, countP_new_rows]
  omega

theorem load_hit (file : StoredFile) (t : ℕ) {s : CacheState} {b : ℕ}
    {tbl : List MetricRecord} (h : s.cache = some (b, tbl))
    (hb : b = t / CACHE_TTL) : load_dataframe file t s = (tbl, s, 0) := by
  unfold load_dataframe
  rw [h]
  simp [hb]

theorem load_cache_after (file : StoredFile) (t : ℕ) (s : CacheState) :
    (load_dataframe file t s).2.1.cache =
      some (t / CACHE_TTL, (load_dataframe file t s).1) := by
  unfold load_dataframe
  rcases h : s.cache with _ | ⟨b, tbl⟩
  · simp
  · by_cases hb : b = t / CACHE_TTL
    · simp [h, hb]
    · simp [hb]

theorem load_initial_after (file : StoredFile) (t : ℕ) (s : CacheState) :
    (load_dataframe file t s).2.1.initial_df = s.initial_df := by
  unfold load_dataframe
  rcases h : s.cache with _ | ⟨b, tbl⟩
  · simp
  · by_cases hb : b = t / CACHE_TTL <;> simp [hb]

theorem runCalls_all_hit (file : StoredFile) {s : CacheState} {B : ℕ}
    {tbl : List MetricRecord} (h : s.cache = some (B, tbl)) :
    ∀ ts : List ℕ, (∀ t ∈ ts, t / CACHE_TTL = B) → runCalls file s ts = (s, 0)
  | [], _ => by simp [runCalls]
  | t :: ts, hall => by
      have h1 : load_dataframe file t s = (tbl, s, 0) :=
        load_hit file t h (hall t (List.mem_cons_self t ts)).symm
      have h2 := runCalls_all_hit file h ts fun u hu => hall u (List.mem_cons_of_mem t hu)
      simp [runCalls, h1, h2]

theorem countP_flatMap_eq_sum {α β : Type} (p : β → Bool) (f : α → List β)
    (l : List α) :
    (l.flatMap f).countP p = (l.map fun a => (f a).countP p).sum := by
  induction l with
  | nil => simp
  | cons a l ih => simp [List.countP_append, ih]

theorem sum_map_eq_one (g : ℕ → ℕ) (i0 : ℕ) :
    ∀ l : List ℕ, i0 ∈ l → l.Nodup →
      (∀ i ∈ l, g i = if i = i0 then 1 else 0) → (l.map g).sum = 1
  | [], hmem, _, _ => by simp at hmem
  | a :: l, hmem, hnd, hg => by
      simp only [List.map_cons, List.sum_cons]
      by_cases hai : a = i0
      · subst hai
        rw [hg a (List.mem_cons_self a l), if_pos rfl]
        have hz : (l.map g).sum = 0 := by
          apply List.sum_eq_zero
          intro x hx
          rcases List.mem_map.mp hx with ⟨i, hi, rfl⟩
          rw [hg i (List.mem_cons_of_mem _ hi), if_neg]
          rintro rfl
          exact (List.nodup_cons.mp hnd).1 hi
        omega
      · have hmem' : i0 ∈ l := by
          rcases List.mem_cons.mp hmem with h | h
          · exact absurd h.symm hai
          · exact h
        have ha : g a = 0 := by
          rw [hg a (List.mem_cons_self a l), if_neg hai]
        rw [ha,
          sum_map_eq_one g i0 l hmem' (List.nodup_cons.mp hnd).2
            fun i hi => hg i (List.mem_cons_of_mem _ hi)]

theorem length_flatMap_range {β : Type} (f : ℕ → List β) (k : ℕ) :
    ∀ m, (∀ i, i < m → (f i).length = k) →
      ((List.range m).flatMap f).length = m * k
  | 0, _ => by simp
  | m + 1, hf => by
      rw [List.range_succ, List.flatMap_append, List.length_append,
        length_flatMap_range f k m fun i hi => hf i (Nat.lt_succ_of_lt hi)]
      simp only [List.flatMap_cons, List.flatMap_nil, List.append_nil,
        hf m (Nat.lt_succ_self m)]
      ring

theorem pairwise_le_replicate (c : ℤ) :
    ∀ k, (List.replicate k c).Pairwise fun a b : ℤ => a ≤ b
  | 0 => List.Pairwise.nil
  | k + 1 => by
      rw [List.replicate_succ]
      exact List.Pairwise.cons
        (fun b hb => le_of_eq (List.eq_of_mem_replicate hb).symm)
        (pairwise_le_replicate c k)

theorem pairwise_le_flatMap_const (g : ℕ → ℤ) (hg : ∀ i j, i ≤ j → g i ≤ g j)
    (m k : ℕ) :
    (((List.range m).flatMap fun i => List.replicate k (g i))).Pairwise
      (fun a b => a ≤ b) := by
  induction m with
  | zero => simp
  | succ n ih =>
      rw [List.range_succ, List.flatMap_append, List.pairwise_append]
      refine ⟨ih, ?_, ?_⟩
      · simp only [List.flatMap_cons, List.flatMap_nil, List.append_nil]
        exact pairwise_le_replicate (g n) k
      · intro a ha b hb
        rcases List.mem_flatMap.mp ha with ⟨i, hi, hai⟩
        simp only [List.flatMap_cons, List.flatMap_nil, List.append_nil] at hb
        rw [List.eq_of_mem_replicate hai, List.eq_of_mem_replicate hb]
        exact hg i n (Nat.le_of_lt (List.mem_range.mp hi))

/-! ### Claims -/

/-- C1: `_derive_status` is a pure total function of (battery, errors)
that returns LOW_BATTERY if battery < 15, else ERROR if errors ≥ 3,
else WARN if errors ≥ 1, else OK — for every input, battery threshold
first — and takes the four quoted values at the four quoted inputs. -/
theorem C1_derive_status_correct :
    (∀ (battery : ℚ) (errors : ℤ),
        _derive_status battery errors = derive_status_spec battery errors) ∧
      _derive_status 10 0 = "LOW_BATTERY" ∧
      _derive_status 50 3 = "ERROR" ∧
      _derive_status 50 1 = "WARN" ∧
      _derive_status 50 0 = "OK" := by
  refine ⟨fun battery errors => ?_, ?_, ?_, ?_, ?_⟩ <;>
    norm_num [_derive_status, derive_status_spec, ge_iff_le]

/-- C2: two `load_dataframe` calls whose times share a bucket — the
second returns the identical cached table with zero store reads and
leaves the state untouched; a call whose bucket differs from the cached
one (or with an empty cache) performs exactly one store read; and after
the first call of a bucket, any run of further calls in that bucket
performs zero reads in total. -/
theorem C2_load_dataframe_bucket_cache (file file2 : StoredFile) (t1 t2 : ℕ)
    (s : CacheState) (hb : t1 / CACHE_TTL = t2 / CACHE_TTL) :
    ((load_dataframe file2 t2 (load_dataframe file t1 s).2.1).1 =
        (load_dataframe file t1 s).1 ∧
      (load_dataframe file2 t2 (load_dataframe file t1 s).2.1).2.2 = 0 ∧
      (load_dataframe file2 t2 (load_dataframe file t1 s).2.1).2.1 =
        (load_dataframe file t1 s).2.1) ∧
    (∀ (t : ℕ) (b : ℕ) (tbl : List MetricRecord),
      s.cache = some (b, tbl) → t / CACHE_TTL ≠ b →
        (load_dataframe file t s).2.2 = 1) ∧
    (s.cache = none → (load_dataframe file t1 s).2.2 = 1) ∧
    (∀ ts : List ℕ, (∀ t ∈ ts, t / CACHE_TTL = t1 / CACHE_TTL) →
      (runCalls file2 (load_dataframe file t1 s).2.1 ts).2 = 0) := by
  refine ⟨?_, ?_, ?_, ?_⟩
  · have hc := load_cache_after file t1 s
    have h2 := load_hit file2 t2 hc (by rw [hb])
    rw [h2]
    exact ⟨rfl, rfl, rfl⟩
  · intro t b tbl hsc hne
    unfold load_dataframe
    rw [hsc]
    simp only []
    rw [if_neg fun h => hne h.symm]
  · intro hnone
    unfold load_dataframe
    rw [hnone]
  · intro ts hall
    have hc := load_cache_after file t1 s
    rw [runCalls_all_hit file2 hc ts hall]

/-- Witness for C2 at file `fileB4`, times 5 and 25 (bucket 0), state
`sC4`. -/
theorem C2_load_dataframe_bucket_cache_witness :
    5 / CACHE_TTL = 25 / CACHE_TTL ∧
    ((load_dataframe fileBad4 25 (load_dataframe fileB4 5 sC4).2.1).1 =
        (load_dataframe fileB4 5 sC4).1 ∧
      (load_dataframe fileBad4 25 (load_dataframe fileB4 5 sC4).2.1).2.2 = 0 ∧
      (load_dataframe fileBad4 25 (load_dataframe fileB4 5 sC4).2.1).2.1 =
        (load_dataframe fileB4 5 sC4).2.1) :=
  ⟨by norm_num [CACHE_TTL],
    (C2_load_dataframe_bucket_cache fileB4 fileBad4 5 25 sC4
      (by norm_num [CACHE_TTL])).1⟩

/-- C4 fails as stated: after a successful reload of table `[rB4]`, a
reload that finds the columns missing returns the startup snapshot
`[rA4]`, not the most recently validated table `[rB4]`. -/
theorem C4_counterexample :
    (load_dataframe fileB4 0 sC4).1 = [rB4] ∧
    fileBad4.hasExpectedCols = false ∧
    (load_dataframe fileBad4 30 (load_dataframe fileB4 0 sC4).2.1).1 = [rA4] ∧
    [rA4] ≠ [rB4] := by
  refine ⟨?_, rfl, ?_, ?_⟩
  · simp [load_dataframe, sC4, _cached_load, fileB4, sortStore, List.insertionSort,
      CACHE_TTL]
  · simp [load_dataframe, sC4, _cached_load, fileB4, fileBad4, sortStore,
      List.insertionSort, CACHE_TTL]
  · simp only [ne_eq, List.cons.injEq, and_true, not_and]
    intro h
    exact absurd (congrArg MetricRecord.date h) (by norm_num [rA4, rB4])

/-- C4 amended: when a reload in a new bucket finds expected columns
missing, `load_dataframe` does not fail: it returns the snapshot read
at startup (`_initial_df`) — which need not be the most recent
previously validated table — after exactly one store read. -/
theorem C4_reload_falls_back_to_startup_snapshot (file : StoredFile) (t : ℕ)
    (s : CacheState) (b : ℕ) (tbl : List MetricRecord)
    (hc : s.cache = some (b, tbl)) (hb : t / CACHE_TTL ≠ b)
    (hbad : file.hasExpectedCols = false) :
    (load_dataframe file t s).1 = s.initial_df ∧
      (load_dataframe file t s).2.2 = 1 := by
  unfold load_dataframe
  rw [hc]
  simp only []
  rw [if_neg fun h => hb h.symm]
  simp [_cached_load, hbad]

/-- Witness for the amended C4 at `fileBad4`, time 30, state `sHit`. -/
theorem C4_reload_falls_back_to_startup_snapshot_witness :
    sHit.cache = some (0, [rB4]) ∧ 30 / CACHE_TTL ≠ 0 ∧
    fileBad4.hasExpectedCols = false ∧
    ((load_dataframe fileBad4 30 sHit).1 = sHit.initial_df ∧
      (load_dataframe fileBad4 30 sHit).2.2 = 1) :=
  ⟨rfl, by norm_num [CACHE_TTL], rfl,
    C4_reload_falls_back_to_startup_snapshot fileBad4 30 sHit 0 [rB4] rfl
      (by norm_num [CACHE_TTL]) rfl⟩

/-- C7: for `days, devices ≥ 1`, `generate_initial_history` emits
exactly `days * devices` records; every record's day lies in
`[today - days, today - 1]` and its device in `1..devices`; each
(day, device) pair in those ranges is hit by exactly one record; and
records are emitted oldest day first (dates are non-decreasing along
the list). -/
theorem C7_generate_counts (o : GenOracle) (todayN : ℤ) (days devices : ℕ)
    (hdays : 1 ≤ days) (hdevs : 1 ≤ devices) :
    ((generate_initial_history o todayN days devices).length = days * devices) ∧
    (∀ r ∈ generate_initial_history o todayN days devices,
      todayN - days ≤ r.date ∧ r.date ≤ todayN - 1 ∧
        1 ≤ r.device_id ∧ r.device_id ≤ devices) ∧
    (∀ (D : ℤ) (dev : ℕ), todayN - days ≤ D → D ≤ todayN - 1 →
      1 ≤ dev → dev ≤ devices →
      ((generate_initial_history o todayN days devices).countP
        fun r => r.date == D && r.device_id == dev) = 1) ∧
    (((generate_initial_history o todayN days devices).map
        fun r => r.date).Pairwise fun a b => a ≤ b) := by
  refine ⟨?_, ?_, ?_, ?_⟩
  · rw [generate_initial_history]
    exact length_flatMap_range _ devices days fun i _ => by simp
  · intro r hr
    rcases mem_generate.mp hr with ⟨i, hi, j, hj, rfl⟩
    rw [mkGenRecord_date o (j + 1) hi]
    simp only [mkGenRecord]
    omega
  · intro D dev hD1 hD2 hdev1 hdev2
    rw [generate_initial_history, countP_flatMap_eq_sum]
    apply sum_map_eq_one _ ((D - (todayN - days)).toNat)
    · apply List.mem_range.mpr
      omega
    · exact List.nodup_range days
    · intro i hi
      have hi' : i < days := List.mem_range.mp hi
      rw [List.countP_map]
      by_cases hiD : i = (D - (todayN - days)).toNat
      · rw [if_pos hiD]
        subst hiD
        have hdate : todayN - ((days - (D - (todayN - days)).toNat : ℕ) : ℤ) = D := by
          omega
        simp only [mkGenRecord, Function.comp_def, hdate, beq_self_eq_true,
          Bool.true_and]
        rw [countP_range_eq, if_pos ⟨hdev1, hdev2⟩]
      · rw [if_neg hiD]
        apply List.countP_eq_zero.mpr
        intro j hj
        simp only [mkGenRecord, Function.comp_def, Bool.and_eq_true, beq_iff_eq,
          not_and]
        intro hdate
        exfalso
        omega
  · have hshape : (generate_initial_history o todayN days devices).map
        (fun r => r.date) =
        (List.range days).flatMap fun i =>
          List.replicate devices (todayN - ((days - i : ℕ) : ℤ)) := by
      simp [generate_initial_history, List.map_flatMap, List.map_map,
        Function.comp_def, mkGenRecord]
    rw [hshape]
    apply pairwise_le_flatMap_const
    intro i j hij
    omega

/-- Witness for C7 at the concrete oracle `oG`, day 1000, 14 days,
5 devices: exactly 70 records. -/
theorem C7_generate_counts_witness :
    1 ≤ 14 ∧ 1 ≤ 5 ∧
      (generate_initial_history oG 1000 14 5).length = 14 * 5 ∧ 14 * 5 = 70 :=
  ⟨by norm_num, by norm_num,
    (C7_generate_counts oG 1000 14 5 (by norm_num) (by norm_num)).1, by norm_num⟩

/-- C8: in the output of `generate_initial_history`, with starts drawn
from [60, 100] and drains from [0.5, 2.5], any two records of the same
device have non-increasing battery as the date advances, and every
stored battery is ≥ 0. -/
theorem C8_battery_non_increasing (o : GenOracle) (todayN : ℤ)
    (days devices : ℕ)
    (hstart : ∀ dev, 60 ≤ o.startBattery dev ∧ o.startBattery dev ≤ 100)
    (hdrain : ∀ k dev, 1/2 ≤ o.drain k dev ∧ o.drain k dev ≤ 5/2) :
    (∀ r1 ∈ generate_initial_history o todayN days devices,
      ∀ r2 ∈ generate_initial_history o todayN days devices,
        r1.device_id = r2.device_id → r1.date ≤ r2.date →
          r2.battery_pct ≤ r1.battery_pct) ∧
    (∀ r ∈ generate_initial_history o todayN days devices,
      0 ≤ r.battery_pct) := by
  constructor
  · intro r1 hr1 r2 hr2 hdev hdate
    rcases mem_generate.mp hr1 with ⟨i1, hi1, j1, hj1, rfl⟩
    rcases mem_generate.mp hr2 with ⟨i2, hi2, j2, hj2, rfl⟩
    have hj : j1 = j2 := by
      simpa [mkGenRecord] using hdev
    subst hj
    rw [mkGenRecord_date o (j1 + 1) hi1, mkGenRecord_date o (j1 + 1) hi2] at hdate
    have hi : i1 ≤ i2 := by omega
    simp only [mkGenRecord, roundTo_intCast]
    have hmono := batteryAfter_antitone o (j1 + 1)
      (le_trans (by norm_num) (hstart (j1 + 1)).1)
      (fun k => le_trans (by norm_num) (hdrain k (j1 + 1)).1)
      (Nat.succ_le_succ hi)
    exact_mod_cast hmono
  · intro r hr
    rcases mem_generate.mp hr with ⟨i, hi, j, hj, rfl⟩
    simp only [mkGenRecord, roundTo_intCast]
    exact_mod_cast batteryAfter_nonneg o (j + 1)
      (le_trans (by norm_num) (hstart (j + 1)).1) (i + 1)

/-- Witness for C8: with oracle `oG` (start 80, drain 1) over 2 days and
1 device, the day-2 battery is at most the day-1 battery and the day-1
battery is nonnegative. -/
theorem C8_battery_non_increasing_witness :
    (mkGenRecord oG 1000 2 1 1).battery_pct ≤
      (mkGenRecord oG 1000 2 0 1).battery_pct ∧
    0 ≤ (mkGenRecord oG 1000 2 0 1).battery_pct :=
  have hmem0 : mkGenRecord oG 1000 2 0 1 ∈ generate_initial_history oG 1000 2 1 :=
    mem_generate.mpr ⟨0, by norm_num, 0, by norm_num, rfl⟩
  have hmem1 : mkGenRecord oG 1000 2 1 1 ∈ generate_initial_history oG 1000 2 1 :=
    mem_generate.mpr ⟨1, by norm_num, 0, by norm_num, rfl⟩
  have h := C8_battery_non_increasing oG 1000 2 1
    (fun dev => by norm_num [oG]) (fun k dev => by norm_num [oG])
  ⟨h.1 (mkGenRecord oG 1000 2 0 1) hmem0 (mkGenRecord oG 1000 2 1 1) hmem1
      rfl (by norm_num [mkGenRecord]),
    h.2 (mkGenRecord oG 1000 2 0 1) hmem0⟩

/-- C6 fails as stated: with start battery 100 and drain 1/2 (both in
range), the recorded battery after one day is 99 — the integer
truncation of 99.5 — not `max(0, previous - drain) = 99.5`.  The
battery array has NumPy integer dtype, so each assignment truncates. -/
theorem C6_counterexample :
    ((generate_initial_history oG6 0 1 1).map fun r => r.battery_pct) =
        [(99 : ℚ)] ∧
      max 0 ((100 : ℚ) - 1/2) = 199/2 ∧ (99 : ℚ) ≠ 199/2 := by
  have hmax : max (0 : ℚ) ((100 : ℚ) - 1/2) = 199/2 := by
    rw [max_eq_right (by norm_num)]
    norm_num
  have hb : batteryAfter oG6 1 1 = 99 := by
    show genStep (batteryAfter oG6 1 0) (oG6.drain 0 1) = 99
    simp only [batteryAfter, genStep, oG6]
    push_cast
    rw [hmax]
    norm_num
  refine ⟨?_, hmax, by norm_num⟩
  have hr1 : List.range 1 = [0] := by decide
  rw [generate_initial_history, hr1]
  simp only [List.flatMap_cons, List.flatMap_nil, List.append_nil,
    List.map_cons, List.map_nil, List.map_map, Function.comp_def, mkGenRecord]
  rw [hb, roundTo_intCast]
  norm_num

/-- C6 amended: the claim holds after inserting the integer truncation
the source's NumPy integer battery array performs on assignment — the
first recorded battery is `⌊max(0, start - drain)⌋` for the drawn
start in [60, 100] and drain in [0.5, 2.5], and each next day's
recorded battery is `⌊max(0, previous - drain)⌋`. -/
theorem C6_battery_update_truncated (o : GenOracle) (todayN : ℤ)
    (days devices : ℕ)
    (hstart : ∀ dev, 60 ≤ o.startBattery dev ∧ o.startBattery dev ≤ 100)
    (hdrain : ∀ k dev, 1/2 ≤ o.drain k dev ∧ o.drain k dev ≤ 5/2) :
    (∀ r ∈ generate_initial_history o todayN days devices,
      r.date = todayN - days →
        ∃ start drain : ℚ, 60 ≤ start ∧ start ≤ 100 ∧
          1/2 ≤ drain ∧ drain ≤ 5/2 ∧
          r.battery_pct = ((⌊max 0 (start - drain)⌋ : ℤ) : ℚ)) ∧
    (∀ r1 ∈ generate_initial_history o todayN days devices,
      ∀ r2 ∈ generate_initial_history o todayN days devices,
        r1.device_id = r2.device_id → r2.date = r1.date + 1 →
          ∃ drain : ℚ, 1/2 ≤ drain ∧ drain ≤ 5/2 ∧
            r2.battery_pct = ((⌊max 0 (r1.battery_pct - drain)⌋ : ℤ) : ℚ)) := by
  constructor
  · intro r hr hdate
    rcases mem_generate.mp hr with ⟨i, hi, j, hj, rfl⟩
    rw [mkGenRecord_date o (j + 1) hi] at hdate
    have hi0 : i = 0 := by omega
    subst hi0
    refine ⟨(o.startBattery (j + 1) : ℚ), o.drain 0 (j + 1),
      by exact_mod_cast (hstart (j + 1)).1, by exact_mod_cast (hstart (j + 1)).2,
      (hdrain 0 (j + 1)).1, (hdrain 0 (j + 1)).2, ?_⟩
    simp only [mkGenRecord, roundTo_intCast, batteryAfter, genStep]
  · intro r1 hr1 r2 hr2 hdev hdate
    rcases mem_generate.mp hr1 with ⟨i1, hi1, j1, hj1, rfl⟩
    rcases mem_generate.mp hr2 with ⟨i2, hi2, j2, hj2, rfl⟩
    have hj : j1 = j2 := by
      simpa [mkGenRecord] using hdev
    subst hj
    rw [mkGenRecord_date o (j1 + 1) hi1, mkGenRecord_date o (j1 + 1) hi2] at hdate
    have hi : i2 = i1 + 1 := by omega
    subst hi
    refine ⟨o.drain (i1 + 1) (j1 + 1), (hdrain (i1 + 1) (j1 + 1)).1,
      (hdrain (i1 + 1) (j1 + 1)).2, ?_⟩
    simp only [mkGenRecord, roundTo_intCast]
    show ((batteryAfter o (j1 + 1) (i1 + 1 + 1) : ℤ) : ℚ) = _
    rw [show batteryAfter o (j1 + 1) (i1 + 1 + 1) =
      genStep (batteryAfter o (j1 + 1) (i1 + 1)) (o.drain (i1 + 1) (j1 + 1)) from rfl]
    rfl

/-- Witness for the amended C6: with oracle `oG` (start 80, drain 1),
2 days, 1 device, the theorem applies to the two emitted records of
device 1. -/
theorem C6_battery_update_truncated_witness :
    ∃ drain : ℚ, 1/2 ≤ drain ∧ drain ≤ 5/2 ∧
      (mkGenRecord oG 1000 2 1 1).battery_pct =
        ((⌊max 0 ((mkGenRecord oG 1000 2 0 1).battery_pct - drain)⌋ : ℤ) : ℚ) :=
  (C6_battery_update_truncated oG 1000 2 1
      (fun dev => by norm_num [oG]) (fun k dev => by norm_num [oG])).2
    (mkGenRecord oG 1000 2 0 1)
    (mem_generate.mpr ⟨0, by norm_num, 0, by norm_num, rfl⟩)
    (mkGenRecord oG 1000 2 1 1)
    (mem_generate.mpr ⟨1, by norm_num, 0, by norm_num, rfl⟩)
    rfl (by norm_num [mkGenRecord])

/-- C3: two successive `append_today` calls for the same day and
device count leave exactly one (device, today) row for each device in
`1..devices`, every today row belongs to a device in `1..devices`, and
the resulting store is sorted by (device_id, date). -/
theorem C3_append_today_idempotent (o1 o2 : AppendOracle) (T : ℤ)
    (s : List MetricRecord) (devices : ℕ) :
    (∀ dev, 1 ≤ dev → dev ≤ devices →
      ((append_today o2 T (some (append_today o1 T (some s) devices)) devices).countP
        fun r => r.date == T && r.device_id == dev) = 1) ∧
    (∀ r ∈ append_today o2 T (some (append_today o1 T (some s) devices)) devices,
      r.date = T → 1 ≤ r.device_id ∧ r.device_id ≤ devices) ∧
    List.Sorted devDateLe
      (append_today o2 T (some (append_today o1 T (some s) devices)) devices) := by
  refine ⟨?_, ?_, sorted_append_today _ _ _ _⟩
  · intro dev h1 h2
    rw [countP_append_today, if_pos ⟨h1, h2⟩]
  · intro r hr hdate
    have h := (append_today_perm o2 T
      (some (append_today o1 T (some s) devices)) devices).mem_iff.mp hr
    rcases List.mem_append.mp h with hf | hn
    · have h2 := (List.mem_filter.mp hf).2
      simp only [Bool.not_eq_true', beq_eq_false_iff_ne, ne_eq] at h2
      exact absurd hdate h2
    · rcases List.mem_map.mp hn with ⟨j, hj, hjr⟩
      have hjd := List.mem_range.mp hj
      rw [← hjr]
      show 1 ≤ j + 1 ∧ j + 1 ≤ devices
      omega

/-- Witness for C3: empty initial store, one device, day 100 — after
two appends exactly one (device 1, day 100) row remains. -/
theorem C3_append_today_idempotent_witness :
    ((append_today oA3 100 (some (append_today oA3 100 (some []) 1)) 1).countP
      fun r => r.date == 100 && r.device_id == 1) = 1 :=
  (C3_append_today_idempotent oA3 oA3 100 [] 1).1 1 (by norm_num) (by norm_num)

/-- C10: `append_today` preserves (as a multiset) every row dated
other than today, while today's rows of the result are exactly one per
device in `1..devices` — in particular a pre-existing today row of any
device outside `1..devices` is silently deleted. -/
theorem C10_append_today_frame (o : AppendOracle) (T : ℤ) (s : List MetricRecord)
    (devices : ℕ) :
    (∀ r : MetricRecord, r.date ≠ T →
      (append_today o T (some s) devices).count r = s.count r) ∧
    (∀ dev, devices < dev →
      ((append_today o T (some s) devices).countP
        fun r => r.date == T && r.device_id == dev) = 0) ∧
    (∀ dev, 1 ≤ dev → dev ≤ devices →
      ((append_today o T (some s) devices).countP
        fun r => r.date == T && r.device_id == dev) = 1) := by
  refine ⟨?_, ?_, ?_⟩
  · intro r hr
    rw [(append_today_perm o T (some s) devices).count_eq, List.count_append]
    have hnew : (((List.range devices).map
        fun j => append_row o T (some s) devices (j + 1)).count r) = 0 := by
      apply List.count_eq_zero.mpr
      intro hmem
      rcases List.mem_map.mp hmem with ⟨j, _, hjr⟩
      apply hr
      rw [← hjr]
      rfl
    have hfil : (((s.filter fun x => !(x.date == T)) : List MetricRecord).count r) =
        s.count r := by
      apply List.count_filter
      simp [hr]
    rw [hnew]
    simp only [Option.getD_some]
    rw [hfil]
    omega
  · intro dev hdev
    rw [countP_append_today, if_neg]
    rintro ⟨_, h2⟩
    omega
  · intro dev h1 h2
    rw [countP_append_today, if_pos ⟨h1, h2⟩]

/-- Witness for C10: store holding a today row for device 7 and an old
row for device 1, appended with `devices = 2`: device 7's today row is
gone, the old row's multiplicity is unchanged, and devices 1 and 2
each have exactly one today row. -/
theorem C10_append_today_frame_witness :
    rO1.date ≠ 100 ∧ 2 < 7 ∧
    ((append_today oA3 100 (some [rT7, rO1]) 2).count rO1 = [rT7, rO1].count rO1 ∧
      ((append_today oA3 100 (some [rT7, rO1]) 2).countP
        fun r => r.date == 100 && r.device_id == 7) = 0 ∧
      ((append_today oA3 100 (some [rT7, rO1]) 2).countP
        fun r => r.date == 100 && r.device_id == 1) = 1) :=
  ⟨by norm_num [rO1], by norm_num,
    (C10_append_today_frame oA3 100 [rT7, rO1] 2).1 rO1 (by norm_num [rO1]),
    (C10_append_today_frame oA3 100 [rT7, rO1] 2).2.1 7 (by norm_num),
    (C10_append_today_frame oA3 100 [rT7, rO1] 2).2.2 1 (by norm_num) (by norm_num)⟩

/-- C5 fails as stated: with previous battery 15.8 and drain 0.84, the
row `append_today` writes has status LOW_BATTERY (derived from the
unrounded battery 14.96) but stored battery_pct 15.0, and
`derive_status(15.0, 0) = OK` — the stored status is not a function of
the stored fields. -/
theorem C5_counterexample :
    append_row oA5 100 (some [rPrev5]) 1 1 ∈ append_today oA5 100 (some [rPrev5]) 1 ∧
    (append_row oA5 100 (some [rPrev5]) 1 1).battery_pct = 15 ∧
    (append_row oA5 100 (some [rPrev5]) 1 1).status = "LOW_BATTERY" ∧
    _derive_status (append_row oA5 100 (some [rPrev5]) 1 1).battery_pct
      (append_row oA5 100 (some [rPrev5]) 1 1).error_count = "OK" ∧
    "LOW_BATTERY" ≠ "OK" := by
  have hlast : lastBattery [rPrev5] 1 = some (79/5) := by
    unfold lastBattery sortStore
    simp [List.insertionSort, List.orderedInsert, rPrev5]
  have hprev : append_prev_batt oA5 (some [rPrev5]) 1 1 = 79/5 := by
    simp [append_prev_batt, hlast]
  have hraw : append_raw_battery oA5 (some [rPrev5]) 1 1 = 374/25 := by
    unfold append_raw_battery
    rw [hprev]
    show max 0 (79/5 - oA5.drain 1) = 374/25
    rw [show oA5.drain 1 = 21/25 from rfl, max_eq_right (by norm_num)]
    norm_num
  have hbatt : (append_row oA5 100 (some [rPrev5]) 1 1).battery_pct = 15 := by
    show roundTo 1 (append_raw_battery oA5 (some [rPrev5]) 1 1) = 15
    rw [hraw]
    unfold roundTo roundHalfEven
    norm_num
  refine ⟨?_, hbatt, ?_, ?_, by simp⟩
  · apply (append_today_perm oA5 100 (some [rPrev5]) 1).mem_iff.mpr
    apply List.mem_append.mpr
    right
    exact List.mem_map.mpr ⟨0, List.mem_range.mpr (by norm_num), rfl⟩
  · show _derive_status (append_raw_battery oA5 (some [rPrev5]) 1 1) 0 = _
    rw [hraw]
    norm_num [_derive_status]
  · rw [hbatt]
    show _derive_status 15 0 = "OK"
    norm_num [_derive_status]

/-- C5 amended: each record's stored status equals `derive_status`
applied to the *unrounded* battery the simulator computed and the
stored error count.  For `generate_initial_history` the battery is
integral, so this coincides with `derive_status` of the stored fields;
for `append_today` rows it is `derive_status` of the raw (pre-rounding)
battery, which can differ from `derive_status` of the stored
battery_pct when rounding crosses the 15% threshold. -/
theorem C5_status_derived (og : GenOracle) (oa : AppendOracle) (todayN T : ℤ)
    (days devices adevices : ℕ) (store : Option (List MetricRecord)) :
    (∀ r ∈ generate_initial_history og todayN days devices,
      r.status = _derive_status r.battery_pct r.error_count) ∧
    (∀ r ∈ append_today oa T store adevices, r.date = T →
      r.status = _derive_status (append_raw_battery oa store adevices r.device_id)
        r.error_count) := by
  constructor
  · intro r hr
    rcases mem_generate.mp hr with ⟨i, hi, j, hj, rfl⟩
    show _derive_status _ _ = _derive_status _ _
    rw [show (mkGenRecord og todayN days i (j + 1)).battery_pct =
      roundTo 1 ((batteryAfter og (j + 1) (i + 1) : ℤ) : ℚ) from rfl, roundTo_intCast]
    rfl
  · intro r hr hdate
    have h := (append_today_perm oa T store adevices).mem_iff.mp hr
    rcases List.mem_append.mp h with hf | hn
    · have h2 := (List.mem_filter.mp hf).2
      simp only [Bool.not_eq_true', beq_eq_false_iff_ne, ne_eq] at h2
      exact absurd hdate h2
    · rcases List.mem_map.mp hn with ⟨j, _, hjr⟩
      rw [← hjr]
      rfl

/-- Witness for the amended C5 at oracle `oG`, 1 day, 1 device: the
single generated record's status is derived from its stored fields. -/
theorem C5_status_derived_witness :
    (mkGenRecord oG 1000 1 0 1).status =
      _derive_status (mkGenRecord oG 1000 1 0 1).battery_pct
        (mkGenRecord oG 1000 1 0 1).error_count :=
  (C5_status_derived oG oA5 1000 100 1 1 1 (some [])).1 (mkGenRecord oG 1000 1 0 1)
    (mem_generate.mpr ⟨0, by norm_num, 0, by norm_num, rfl⟩)

/-- C9 fails as stated: for an unseen device with start 65 and drain
0.88, the stored battery_pct is 64.1 (rounded to one decimal), but no
start in [65, 100] satisfies `64.1 = max(0, start - 0.88)`, since that
would need start = 64.98 < 65. -/
theorem C9_counterexample :
    append_row oA9 100 (some []) 1 1 ∈ append_today oA9 100 (some []) 1 ∧
    oA9.drain 1 = 22/25 ∧
    (append_row oA9 100 (some []) 1 1).battery_pct = 641/10 ∧
    (∀ start : ℚ, 65 ≤ start → max 0 (start - 22/25) ≠ 641/10) := by
  have hlast : lastBattery [] 1 = none := by
    unfold lastBattery sortStore
    simp [List.insertionSort]
  have hraw : append_raw_battery oA9 (some []) 1 1 = 1603/25 := by
    unfold append_raw_battery
    rw [show append_prev_batt oA9 (some []) 1 1 = 65 from by
      simp [append_prev_batt, hlast, oA9]]
    rw [show oA9.drain 1 = 22/25 from rfl, max_eq_right (by norm_num)]
    norm_num
  refine ⟨?_, rfl, ?_, ?_⟩
  · apply (append_today_perm oA9 100 (some []) 1).mem_iff.mpr
    apply List.mem_append.mpr
    right
    exact List.mem_map.mpr ⟨0, List.mem_range.mpr (by norm_num), rfl⟩
  · show roundTo 1 (append_raw_battery oA9 (some []) 1 1) = 641/10
    rw [hraw]
    unfold roundTo roundHalfEven
    norm_num
  · intro start hstart
    have h1 : (641 : ℚ)/10 < start - 22/25 := by linarith
    have h2 : start - 22/25 ≤ max 0 (start - 22/25) := le_max_right _ _
    intro heq
    rw [heq] at h2
    linarith

/-- C9 amended: the row `append_today` writes for an unseen device (or
any device when the store file is missing) has battery_pct equal to
`round(max(0, start - drain), 1)` — the claimed value rounded to one
decimal — for a start in [65, 100] and the drawn drain in [0.8, 3.0],
and the stored battery is still ≥ 0. -/
theorem C9_unseen_device_start (o : AppendOracle) (T : ℤ)
    (store : Option (List MetricRecord)) (devices dev : ℕ)
    (hdev1 : 1 ≤ dev) (hdev2 : dev ≤ devices)
    (hunseen : store = none ∨ ∃ s, store = some s ∧ ∀ r ∈ s, r.device_id ≠ dev)
    (hfresh : 70 ≤ o.freshBattery dev ∧ o.freshBattery dev ≤ 100)
    (huns : 65 ≤ o.unseenBattery dev ∧ o.unseenBattery dev ≤ 100)
    (hdrain : 4/5 ≤ o.drain dev ∧ o.drain dev ≤ 3) :
    append_row o T store devices dev ∈ append_today o T store devices ∧
    (append_row o T store devices dev).date = T ∧
    (append_row o T store devices dev).device_id = dev ∧
    (∃ start : ℚ, 65 ≤ start ∧ start ≤ 100 ∧
      (append_row o T store devices dev).battery_pct =
        roundTo 1 (max 0 (start - o.drain dev))) ∧
    0 ≤ (append_row o T store devices dev).battery_pct := by
  refine ⟨?_, rfl, rfl, ?_, ?_⟩
  · apply (append_today_perm o T store devices).mem_iff.mpr
    apply List.mem_append.mpr
    right
    apply List.mem_map.mpr
    refine ⟨dev - 1, List.mem_range.mpr (by omega), ?_⟩
    have h : dev - 1 + 1 = dev := by omega
    rw [h]
  · rcases hunseen with rfl | ⟨s, rfl, hs⟩
    · have hp : append_prev_batt o none devices dev = ((o.freshBattery dev : ℤ) : ℚ) := by
        simp [append_prev_batt, hdev1, hdev2]
      refine ⟨append_prev_batt o none devices dev, ?_, ?_, rfl⟩
      · rw [hp]
        exact_mod_cast le_trans (by norm_num) hfresh.1
      · rw [hp]
        exact_mod_cast hfresh.2
    · have hfilter : ((sortStore s).filter fun r => r.device_id == dev) = [] := by
        apply List.filter_eq_nil_iff.mpr
        intro r hrs
        simpa using hs r (mem_sortStore.mp hrs)
      have hlast : lastBattery s dev = none := by
        unfold lastBattery
        rw [hfilter]
        rfl
      have hp : append_prev_batt o (some s) devices dev =
          ((o.unseenBattery dev : ℤ) : ℚ) := by
        simp [append_prev_batt, hlast]
      refine ⟨append_prev_batt o (some s) devices dev, ?_, ?_, rfl⟩
      · rw [hp]
        exact_mod_cast huns.1
      · rw [hp]
        exact_mod_cast huns.2
  · show 0 ≤ roundTo 1 (append_raw_battery o store devices dev)
    exact roundTo_nonneg 1 (le_max_left 0 _)

/-- Witness for the amended C9: empty existing store (device 1 unseen),
oracle `oA9`. -/
theorem C9_unseen_device_start_witness :
    append_row oA9 100 (some []) 1 1 ∈ append_today oA9 100 (some []) 1 ∧
    (append_row oA9 100 (some []) 1 1).date = 100 ∧
    (append_row oA9 100 (some []) 1 1).device_id = 1 ∧
    (∃ start : ℚ, 65 ≤ start ∧ start ≤ 100 ∧
      (append_row oA9 100 (some []) 1 1).battery_pct =
        roundTo 1 (max 0 (start - oA9.drain 1))) ∧
    0 ≤ (append_row oA9 100 (some []) 1 1).battery_pct :=
  C9_unseen_device_start oA9 100 (some []) 1 1 (by norm_num) (by norm_num)
    (Or.inr ⟨[], rfl, by simp⟩) (by norm_num [oA9]) (by norm_num [oA9])
    (by norm_num [oA9])

end Portfolio
